import Mathlib

/-!
Shallow embedding of the VectorPainter pipeline
(`vectorpainter/painter/inversion.py` and
`vectorpainter/pipelines/VectorPainter_pipeline.py`).

Latents, images and raster tensors are abstracted to a type parameter;
the diffusion model's noise prediction, the VAE encoder and the pixel
metrics (MSE, SSIM, MS-SSIM, Sinkhorn) are opaque external collaborators
and enter as function parameters.  Scalars are rationals.
-/

/-- Latent after `k` iterations of the DDIM-inversion loop in `_ddim_loop`:
`latentAt stepFn z0 0 = z0` is the clean encoded image and each further
application of `stepFn` performs one `_next_step` noising update (the update
for iteration `i` is deterministic given the model, prompt and guidance, so
it is a function of the iteration index and the current latent). -/
def latentAt {α : Type} (stepFn : ℕ → α → α) (z0 : α) : ℕ → α
  | 0 => z0
  | n + 1 => stepFn n (latentAt stepFn z0 n)

/-- Embedding of `_ddim_loop`: `all_latent` starts as `[z0]`, each of the
`numSteps` iterations appends the latent produced by `_next_step`, and the
collected stack is reversed at the end (`torch.cat(all_latent).flip(0)`). -/
def ddimLoop {α : Type} (stepFn : ℕ → α → α) (z0 : α) (numSteps : ℕ) : List α :=
  ((List.range (numSteps + 1)).map (latentAt stepFn z0)).reverse

/-- Embedding of `ddim_inversion`: encode the image once into latent space
(`_encode_image`, abstracted as `encodeFn`), then run `_ddim_loop`. -/
def ddimInversion {α β : Type} (encodeFn : β → α) (stepFn : ℕ → α → α)
    (x0 : β) (numInvSteps : ℕ) : List α :=
  ddimLoop stepFn (encodeFn x0) numInvSteps

/-- Embedding of the timestep update in `_next_step`:
`timestep = min(timestep - num_train_timesteps // num_inference_steps, 999)`. -/
def nextStepPrevT (numTrain numInf t : ℤ) : ℤ :=
  min (t - numTrain / numInf) 999

/-- Embedding of the alpha selection in `_next_step`:
`alpha_prod_t = alphas_cumprod[int(timestep)] if timestep >= 0 else
final_alpha_cumprod`. -/
def nextStepAlphaProdT (alphas : ℤ → ℚ) (finalAlpha : ℚ) (prevT : ℤ) : ℚ :=
  if 0 ≤ prevT then alphas prevT else finalAlpha

/-- Embedding of the closed-form update of `_next_step`.  Square roots
(`** 0.5` in the source) are abstracted by `sqrtFn`; `alphas` is the
scheduler's `alphas_cumprod` table and `finalAlpha` its
`final_alpha_cumprod` boundary value. -/
def nextStep (sqrtFn : ℚ → ℚ) (alphas : ℤ → ℚ) (finalAlpha : ℚ)
    (numTrain numInf : ℤ) (modelOutput sample : ℚ) (t : ℤ) : ℚ :=
  let prevT := nextStepPrevT numTrain numInf t
  let alphaProdT := nextStepAlphaProdT alphas finalAlpha prevT
  let alphaProdTNext := alphas t
  let betaProdT := 1 - alphaProdT
  let nextOriginalSample := (sample - sqrtFn betaProdT * modelOutput) / sqrtFn alphaProdT
  let nextSampleDirection := sqrtFn (1 - alphaProdTNext) * modelOutput
  sqrtFn alphaProdTNext * nextOriginalSample + nextSampleDirection

/-- Embedding of the initial latent returned by `make_inversion_callback`:
`zts[offset]`. -/
def inversionCallbackInit {α : Type} [Inhabited α] (zts : List α) (offset : ℕ) : α :=
  zts.getD offset default

/-- Embedding of `callback_on_step_end` built by `make_inversion_callback`:
at denoising step `i` it mutates the working batch in place by
`latents[0] = zts[max(offset + 1, i + 1)]` and returns the batch. -/
def inversionCallback {α : Type} [Inhabited α] (zts : List α) (offset i : ℕ)
    (latents : List α) : List α :=
  latents.set 0 (zts.getD (max (offset + 1) (i + 1)) default)

/-- Embedding of `_get_text_embeddings`: the encoder (abstracted as the two
functions `encSeq`, `encPooled`, producing the penultimate-hidden-state
sequence embedding and the pooled embedding) runs on the prompt first; for
the empty prompt the function returns `torch.zeros_like` of both encoder
outputs, otherwise the outputs themselves.  Embeddings are flat lists of
rationals so `zeros_like` is a shape-preserving map to `0`. -/
def getTextEmbeddings (encSeq encPooled : String → List ℚ) (prompt : String) :
    List ℚ × List ℚ :=
  let promptEmbeds := encSeq prompt
  let pooledPromptEmbeds := encPooled prompt
  if prompt = "" then
    (promptEmbeds.map (fun _ => 0), pooledPromptEmbeds.map (fun _ => 0))
  else
    (promptEmbeds, pooledPromptEmbeds)

/-- Embedding of `_encode_text_sdxl_with_negative`: the unconditional branch
encodes the empty prompt and is concatenated in front of the conditional
branch along the batch dimension (`torch.cat((prompt_embeds_uncond,
prompt_embeds))`), for both the sequence and the pooled embeddings. -/
def encodeTextSdxlWithNegative (encSeq encPooled : String → List ℚ)
    (prompt : String) : List ℚ × List ℚ :=
  let uncond := getTextEmbeddings encSeq encPooled ""
  let cond := getTextEmbeddings encSeq encPooled prompt
  (uncond.1 ++ cond.1, uncond.2 ++ cond.2)

/-- Stage-2 loss configuration fields of `x_cfg` read by
`synthesis_with_style_supervision`. -/
structure SynthCfg where
  l2Loss : ℚ
  structLossWeight : ℚ
  structLoss : String
  posLossWeight : ℚ
  posType : String
deriving Repr, DecidableEq

/-- Embedding of the structural-metric selection performed before the
stage-2 loop: `SSIM()` for `'ssim'`, `MSSSIM()` for `'msssim'`, and the
zero-loss lambda `lambda x, y: torch.tensor(0.)` otherwise. -/
def structFn {α : Type} (ssimFn msssimFn : α → α → ℚ) (cfg : SynthCfg) :
    α → α → ℚ :=
  if cfg.structLoss = "ssim" then ssimFn
  else if cfg.structLoss = "msssim" then msssimFn
  else fun _ _ => 0

/-- Embedding of the stage-2 reconstruction term:
`l_recon = F.mse_loss(raster_sketch, inputs) * l2_loss` when `l2_loss > 0`,
else the initial `torch.tensor(0.)`. -/
def reconTerm {α : Type} (mseFn : α → α → ℚ) (cfg : SynthCfg)
    (raster inputs : α) : ℚ :=
  if 0 < cfg.l2Loss then mseFn raster inputs * cfg.l2Loss else 0

/-- Embedding of the stage-2 structural term: when `struct_loss_weight > 0`,
`l_struct = 1. - l_struct_fn(raster_sketch, inputs)` if the selected metric
is `'ssim'` or `'msssim'`, else `l_struct = l_struct_fn(raster_sketch,
inputs)` (the zero lambda); when the weight is not positive the term keeps
its initial `torch.tensor(0.)`. -/
def structTerm {α : Type} (ssimFn msssimFn : α → α → ℚ) (cfg : SynthCfg)
    (raster inputs : α) : ℚ :=
  if 0 < cfg.structLossWeight then
    if cfg.structLoss = "ssim" ∨ cfg.structLoss = "msssim" then
      1 - structFn ssimFn msssimFn cfg raster inputs
    else
      structFn ssimFn msssimFn cfg raster inputs
  else 0

/-- Embedding of the stage-2 positional/shape term.  `relPosMse` stands for
`F.mse_loss(get_relative_pos(points), init_relative_pos)` and `bezVal` for
`bezier_curve_loss(points, init_curves)` (both depend only on stroke
parameters); `sinkhornFn` is the `SinkhornLoss` module and is applied to the
current raster and `renderer.style_img`.  `inputs` (the stage-2 synthesis
target) is in scope in the source but unused by every branch of this term.
An unmatched `pos_type` leaves the initial `torch.tensor(0.)`. -/
def posTerm {α : Type} (sinkhornFn : α → α → ℚ) (cfg : SynthCfg)
    (relPosMse bezVal : ℚ) (raster styleImg inputs : α) : ℚ :=
  if 0 < cfg.posLossWeight then
    if cfg.posType = "pos" then relPosMse * cfg.posLossWeight
    else if cfg.posType = "bez" then bezVal * cfg.posLossWeight
    else if cfg.posType = "sinkhorn" then
      sinkhornFn raster styleImg * cfg.posLossWeight
    else 0
  else 0

/-- Embedding of the stage-2 total loss: `loss = l_recon + l_struct +
l_rel_pos`, the plain sum of the three term variables. -/
def totalLoss {α : Type} (mseFn ssimFn msssimFn sinkhornFn : α → α → ℚ)
    (cfg : SynthCfg) (relPosMse bezVal : ℚ) (raster styleImg inputs : α) : ℚ :=
  reconTerm mseFn cfg raster inputs
    + structTerm ssimFn msssimFn cfg raster inputs
    + posTerm sinkhornFn cfg relPosMse bezVal raster styleImg inputs

/-- Outcome of one stage-2 iteration.  The `configError` constructor models
the spec's ConfigError taxonomy for comparison; the source contains no
validation or raise statement, so the embedded iteration below never
produces it. -/
inductive Stage2Outcome where
  | ok (loss : ℚ)
  | configError
deriving Repr, DecidableEq

/-- Embedding of one loss-computing iteration of the stage-2 loop in
`synthesis_with_style_supervision`: the body unconditionally computes the
three terms and their sum; no configuration check exists anywhere between
entry of the method and the loop, so every iteration yields a loss. -/
def stage2Iteration {α : Type} (mseFn ssimFn msssimFn sinkhornFn : α → α → ℚ)
    (cfg : SynthCfg) (relPosMse bezVal : ℚ) (raster styleImg inputs : α) :
    Stage2Outcome :=
  Stage2Outcome.ok
    (totalLoss mseFn ssimFn msssimFn sinkhornFn cfg relPosMse bezVal
      raster styleImg inputs)

/-- Embedding of the batch prompt list built in `style_inversion`:
`prompts = [style_prompt, prompt, prompt]`. -/
def styleInversionPrompts (stylePrompt contentPrompt : String) : List String :=
  [stylePrompt, contentPrompt, contentPrompt]

/-- Embedding of the negative-prompt replication in `style_inversion`:
`negative_prompt = [negative_prompt] * len(prompts)`. -/
def negativePromptList (neg : String) (n : ℕ) : List String :=
  List.replicate n neg

/-- Embedding of the target selection in `style_inversion`: the caller keeps
`outputs[-1]`, the last batch entry. -/
def selectTarget {α : Type} [Inhabited α] (outputs : List α) : α :=
  outputs.getD (outputs.length - 1) default

/-- Embedding of the stage-1 result path produced by `brushstroke_imitation`:
`recon_style_fpath = self.result_path / 'style_result.png'`. -/
def reconStyleFpath (resultPath : String) : String :=
  resultPath ++ "/style_result.png"

/-- Embedding of the dataflow from `synthesis_with_style_supervision` to
`style_inversion`: the fifth parameter `recon_style_fpath` is passed
unchanged as `init_fpath`. -/
def synthesisInversionInitFpath (reconStyleFpathArg : String) : String :=
  reconStyleFpathArg

/-- Embedding of the dataflow from `painterly_rendering`: it calls
`synthesis_with_style_supervision(text_prompt, negative_prompt, renderer,
style_prompt, style_fpath)`, binding the original `style_fpath` — not the
`recon_style_fpath` returned by `brushstroke_imitation` — to the parameter
that `style_inversion` receives as `init_fpath`. -/
def painterlyRenderingInversionInitFpath (styleFpath : String) : String :=
  synthesisInversionInitFpath styleFpath

/-- Embedding of the image path handed to `captioning` inside
`style_inversion` (`none` when no captioning occurs): `style_prompt =
style_prompt if style_prompt is not None else self.captioning(init_img)`
where `init_img` is loaded from `init_fpath`. -/
def styleInversionCaptionInput (stylePrompt : Option String)
    (initFpath : String) : Option String :=
  match stylePrompt with
  | some _ => none
  | none => some initFpath

/-- Embedding of the effective style prompt used by `style_inversion`:
the supplied prompt when present, otherwise the caption (`captionFn`
abstracts the BLIP-2 captioner) of the image at `init_fpath`. -/
def effectiveStylePrompt (captionFn : String → String)
    (stylePrompt : Option String) (initFpath : String) : String :=
  match stylePrompt with
  | some s => s
  | none => captionFn initFpath

/-- C1: the claim states that the trajectory returned by `ddim_inversion`
holds the clean encoded image at index 0.  With noising steps counted on
naturals (`z0 = 0` clean, each `_next_step` adding one unit of noise), the
trajectory for `num_steps = 2` is `[2, 1, 0]`: its entry at index 0 is the
most-noised latent, not the clean image. -/
theorem c1_trajectory_counterexample :
    ddimLoop (fun _ k => k + 1) 0 2 = [2, 1, 0] ∧
    (ddimLoop (fun _ k => k + 1) 0 2).getD 0 0 ≠ 0 := by
  constructor
  · rfl
  · decide

/-- C1 (amended): the trajectory returned by the inversion loop has
`num_steps + 1` entries and entry `i` is the latent after `num_steps - i`
noising updates: index 0 is the most-noised state and index `num_steps` is
the clean encoded image, so after the final reversal smaller indices are
MORE noisy. -/
theorem c1_trajectory_order {α : Type} (stepFn : ℕ → α → α) (z0 : α)
    (n : ℕ) (d : α) :
    (ddimLoop stepFn z0 n).length = n + 1 ∧
    ∀ i : ℕ, i ≤ n →
      (ddimLoop stepFn z0 n).getD i d = latentAt stepFn z0 (n - i) := by
  constructor
  · simp [ddimLoop]
  · intro i hi
    have hlen : i < ((List.range (n + 1)).map (latentAt stepFn z0)).length := by
      simpa using Nat.lt_succ_of_le hi
    rw [ddimLoop, List.getD_eq_getElem?_getD, List.getElem?_reverse hlen]
    have hsub : ((List.range (n + 1)).map (latentAt stepFn z0)).length - 1 - i
        = n - i := by
      simp
    rw [hsub, List.getElem?_map, List.getElem?_range (by omega)]
    rfl

/-- C1 witness: instantiation of the amended ordering theorem at a concrete
trajectory. -/
theorem c1_trajectory_order_witness :
    (ddimLoop (fun _ k => k + 1) 0 3).getD 1 0 = 2 := by
  have h := (c1_trajectory_order (fun _ k => k + 1) 0 3 0).2 1 (by decide)
  rw [h]
  decide

/-- C2: the claim states that the structural contribution equals the
configured weight times `1 - metric`.  With weight 2 and metric value 0 the
code contributes `1 - 0 = 1`, while the claim demands `2 * (1 - 0) = 2`. -/
theorem c2_struct_weight_counterexample :
    structTerm (α := ℕ) (fun _ _ => 0) (fun _ _ => 0)
        ⟨0, 2, "ssim", 0, "pos"⟩ 0 0 = 1 ∧
    (⟨0, 2, "ssim", 0, "pos"⟩ : SynthCfg).structLossWeight * (1 - 0) = 2 ∧
    (1 : ℚ) ≠ 2 := by
  refine ⟨?_, by norm_num, by norm_num⟩
  norm_num [structTerm, structFn]

/-- C2 (amended): when the structural weight is positive, the structural
term contributed to the total loss equals `1 - similarity_metric(raster,
target)` with the weight acting only as an on/off gate (it is never
multiplied into the term); a metric selection outside
`{'ssim', 'msssim'}` yields an exactly-zero structural term. -/
theorem c2_struct_term_unweighted {α : Type} (ssimFn msssimFn : α → α → ℚ)
    (cfg : SynthCfg) (raster inputs : α) (hw : 0 < cfg.structLossWeight) :
    (cfg.structLoss = "ssim" →
      structTerm ssimFn msssimFn cfg raster inputs = 1 - ssimFn raster inputs) ∧
    (cfg.structLoss = "msssim" →
      structTerm ssimFn msssimFn cfg raster inputs = 1 - msssimFn raster inputs) ∧
    (cfg.structLoss ≠ "ssim" ∧ cfg.structLoss ≠ "msssim" →
      structTerm ssimFn msssimFn cfg raster inputs = 0) := by
  refine ⟨fun h => ?_, fun h => ?_, fun h => ?_⟩
  · simp [structTerm, structFn, hw, h]
  · simp [structTerm, structFn, hw, h]
  · simp [structTerm, structFn, hw, h.1, h.2]

/-- C2 witness: instantiation of the amended structural-term theorem with a
weight of 2 and an SSIM value of 1/2; the contribution is `1 - 1/2`, not
`2 * (1 - 1/2)`. -/
theorem c2_struct_term_unweighted_witness :
    structTerm (α := ℕ) (fun _ _ => (1 : ℚ) / 2) (fun _ _ => 0)
      ⟨0, 2, "ssim", 0, "pos"⟩ 0 0 = 1 - 1 / 2 :=
  (c2_struct_term_unweighted (fun _ _ => (1 : ℚ) / 2) (fun _ _ => 0)
    ⟨0, 2, "ssim", 0, "pos"⟩ 0 0 (by norm_num)).1 rfl

/-- C3: the claim states that an unsupported position-loss type or a
negative structural weight raises a ConfigError before any iteration runs.
With `pos_type = 'wasserstein'` and `struct_loss_weight = -1` the stage-2
iteration runs and produces the loss value 3 (the weighted reconstruction
term alone); no ConfigError outcome occurs. -/
theorem c3_no_config_error_counterexample :
    stage2Iteration (α := ℕ) (fun _ _ => 3) (fun _ _ => 0) (fun _ _ => 0)
        (fun _ _ => 0) ⟨1, -1, "ssim", 1, "wasserstein"⟩ 0 0 0 0 0
      = Stage2Outcome.ok 3 ∧
    Stage2Outcome.ok 3 ≠ Stage2Outcome.configError := by
  constructor
  · norm_num [stage2Iteration, totalLoss, reconTerm, structTerm, posTerm,
      structFn]
  · simp

/-- C3 (amended): no ConfigError exists in the code.  An unsupported
position-loss type string silently contributes a zero positional term at
every iteration, a negative structural weight silently disables the
structural term, and the iteration proceeds normally, computing the
remaining (reconstruction) loss. -/
theorem c3_silent_ignore {α : Type}
    (mseFn ssimFn msssimFn sinkhornFn : α → α → ℚ) (cfg : SynthCfg)
    (relPosMse bezVal : ℚ) (raster styleImg inputs : α)
    (hpos : cfg.posType ≠ "pos" ∧ cfg.posType ≠ "bez" ∧
      cfg.posType ≠ "sinkhorn")
    (hw : cfg.structLossWeight < 0) :
    posTerm sinkhornFn cfg relPosMse bezVal raster styleImg inputs = 0 ∧
    structTerm ssimFn msssimFn cfg raster inputs = 0 ∧
    stage2Iteration mseFn ssimFn msssimFn sinkhornFn cfg relPosMse bezVal
        raster styleImg inputs
      = Stage2Outcome.ok (reconTerm mseFn cfg raster inputs) := by
  have hp : posTerm sinkhornFn cfg relPosMse bezVal raster styleImg inputs
      = 0 := by
    simp [posTerm, hpos.1, hpos.2.1, hpos.2.2]
  have hs : structTerm ssimFn msssimFn cfg raster inputs = 0 := by
    simp [structTerm, not_lt.mpr hw.le]
  refine ⟨hp, hs, ?_⟩
  simp [stage2Iteration, totalLoss, hp, hs]

/-- C3 witness: instantiation of the silent-ignore theorem at the concrete
bad configuration. -/
theorem c3_silent_ignore_witness :
    stage2Iteration (α := ℕ) (fun _ _ => 3) (fun _ _ => 0) (fun _ _ => 0)
        (fun _ _ => 0) ⟨1, -1, "ssim", 1, "wasserstein"⟩ 0 0 0 0 0
      = Stage2Outcome.ok
          (reconTerm (α := ℕ) (fun _ _ => 3) ⟨1, -1, "ssim", 1, "wasserstein"⟩ 0 0) :=
  (c3_silent_ignore (fun _ _ => 3) (fun _ _ => 0) (fun _ _ => 0)
    (fun _ _ => 0) ⟨1, -1, "ssim", 1, "wasserstein"⟩ 0 0 0 0 0
    (by refine ⟨?_, ?_, ?_⟩ <;> decide) (by norm_num)).2.2

/-- C4: for every iteration of the inversion loop (every timestep drawn
from the scheduler's timestep list, all of which lie in `[0, 999]`), the
stepped-back timestep computed by `_next_step` is at most 999; whenever it
is used to index the `alphas_cumprod` table it lies in `[0, 999]`; when it
falls below 0 the boundary `final_alpha_cumprod` is used instead; and the
`next_timestep` index (the incoming timestep itself) also lies in
`[0, 999]`. -/
theorem c4_next_step_alpha (alphas : ℤ → ℚ) (finalAlpha : ℚ) (numInf : ℤ)
    (timesteps : List ℤ) (hts : ∀ t ∈ timesteps, 0 ≤ t ∧ t ≤ 999)
    (t : ℤ) (hmem : t ∈ timesteps) :
    nextStepPrevT 1000 numInf t ≤ 999 ∧
    (0 ≤ nextStepPrevT 1000 numInf t →
      (0 ≤ nextStepPrevT 1000 numInf t ∧ nextStepPrevT 1000 numInf t ≤ 999) ∧
      nextStepAlphaProdT alphas finalAlpha (nextStepPrevT 1000 numInf t)
        = alphas (nextStepPrevT 1000 numInf t)) ∧
    (nextStepPrevT 1000 numInf t < 0 →
      nextStepAlphaProdT alphas finalAlpha (nextStepPrevT 1000 numInf t)
        = finalAlpha) ∧
    (0 ≤ t ∧ t ≤ 999) := by
  have h := hts t hmem
  refine ⟨min_le_right _ _,
    fun h0 => ⟨⟨h0, min_le_right _ _⟩, if_pos h0⟩,
    fun hneg => if_neg (not_le.mpr hneg), h⟩

/-- C4 witness: with 2 inference steps and the timestep list `[1, 501]`,
the first inversion iteration (timestep 1) steps back past the boundary and
uses `final_alpha_cumprod`. -/
theorem c4_next_step_alpha_witness :
    nextStepAlphaProdT (fun _ => (1 : ℚ) / 2) 1 (nextStepPrevT 1000 2 1) = 1 :=
  (c4_next_step_alpha (fun _ => (1 : ℚ) / 2) 1 2 [1, 501]
    (by decide) 1 (by decide)).2.2.1 (by decide)

/-- C5: when the Sinkhorn position-loss variant is selected with a positive
weight, the positional term equals the Sinkhorn distance between the
current raster and the renderer's original style raster, scaled by the
weight; it is entirely independent of the stage-2 synthesis target
`inputs`. -/
theorem c5_sinkhorn_style_reference {α : Type} (sinkhornFn : α → α → ℚ)
    (cfg : SynthCfg) (relPosMse bezVal : ℚ) (raster styleImg : α)
    (htype : cfg.posType = "sinkhorn") (hw : 0 < cfg.posLossWeight) :
    (∀ inputs : α,
      posTerm sinkhornFn cfg relPosMse bezVal raster styleImg inputs
        = sinkhornFn raster styleImg * cfg.posLossWeight) ∧
    (∀ inputsA inputsB : α,
      posTerm sinkhornFn cfg relPosMse bezVal raster styleImg inputsA
        = posTerm sinkhornFn cfg relPosMse bezVal raster styleImg inputsB) := by
  have hmain : ∀ inputs : α,
      posTerm sinkhornFn cfg relPosMse bezVal raster styleImg inputs
        = sinkhornFn raster styleImg * cfg.posLossWeight := by
    intro inputs
    simp [posTerm, htype, hw]
  exact ⟨hmain, fun a b => (hmain a).trans (hmain b).symm⟩

/-- C5 witness: instantiation at a concrete configuration; the term is the
Sinkhorn distance of raster `1` and style raster `2`, times the weight. -/
theorem c5_sinkhorn_style_reference_witness :
    posTerm (α := ℚ) (fun a b => a + b) ⟨0, 0, "x", 2, "sinkhorn"⟩ 9 9 1 2 5
      = (1 + 2) * 2 :=
  (c5_sinkhorn_style_reference (fun a b => a + b) ⟨0, 0, "x", 2, "sinkhorn"⟩
    9 9 1 2 rfl (by norm_num)).1 5

/-- C6: a non-positive weight makes the corresponding term exactly 0
(reconstruction, structural and positional alike), and the total loss is
the plain sum of the three term variables. -/
theorem c6_zero_weight_zero_term {α : Type}
    (mseFn ssimFn msssimFn sinkhornFn : α → α → ℚ) (cfg : SynthCfg)
    (relPosMse bezVal : ℚ) (raster styleImg inputs : α) :
    (cfg.l2Loss ≤ 0 → reconTerm mseFn cfg raster inputs = 0) ∧
    (cfg.structLossWeight ≤ 0 →
      structTerm ssimFn msssimFn cfg raster inputs = 0) ∧
    (cfg.posLossWeight ≤ 0 →
      posTerm sinkhornFn cfg relPosMse bezVal raster styleImg inputs = 0) ∧
    totalLoss mseFn ssimFn msssimFn sinkhornFn cfg relPosMse bezVal
        raster styleImg inputs
      = reconTerm mseFn cfg raster inputs
        + structTerm ssimFn msssimFn cfg raster inputs
        + posTerm sinkhornFn cfg relPosMse bezVal raster styleImg inputs := by
  refine ⟨fun h => ?_, fun h => ?_, fun h => ?_, rfl⟩
  · simp [reconTerm, not_lt.mpr h]
  · simp [structTerm, not_lt.mpr h]
  · simp [posTerm, not_lt.mpr h]

/-- C6 witness: with all three weights non-positive the total loss is 0
regardless of the metric values. -/
theorem c6_zero_weight_zero_term_witness :
    totalLoss (α := ℕ) (fun _ _ => 9) (fun _ _ => 9) (fun _ _ => 9)
      (fun _ _ => 9) ⟨-1, 0, "ssim", -2, "pos"⟩ 5 7 0 0 0 = 0 := by
  have h := c6_zero_weight_zero_term (α := ℕ) (fun _ _ => 9) (fun _ _ => 9)
    (fun _ _ => 9) (fun _ _ => 9) ⟨-1, 0, "ssim", -2, "pos"⟩ 5 7 0 0 0
  rw [h.2.2.2, h.1 (by norm_num), h.2.1 (by norm_num), h.2.2.1 (by norm_num)]
  norm_num

/-- C7: at every denoising step `i` the registered callback overwrites
batch slot 0 of the working latents with the trajectory latent at index
`max(offset + 1, i + 1)`, leaves every other slot and the batch length
unchanged, and (when that index is within the trajectory) the injected
value is an element of the saved trajectory. -/
theorem c7_callback_overwrites_slot_zero {α : Type} [Inhabited α]
    (zts : List α) (offset i : ℕ) (latents : List α) (hne : latents ≠ []) :
    (inversionCallback zts offset i latents).getD 0 default
      = zts.getD (max (offset + 1) (i + 1)) default ∧
    (inversionCallback zts offset i latents).length = latents.length ∧
    (∀ j, j ≠ 0 →
      (inversionCallback zts offset i latents).getD j default
        = latents.getD j default) ∧
    (max (offset + 1) (i + 1) < zts.length →
      (inversionCallback zts offset i latents).getD 0 default ∈ zts) := by
  have hlen : 0 < latents.length := List.length_pos.mpr hne
  have hslot : (inversionCallback zts offset i latents).getD 0 default
      = zts.getD (max (offset + 1) (i + 1)) default := by
    rw [inversionCallback, List.getD_eq_getElem?_getD,
      List.getElem?_set_self hlen]
    rfl
  refine ⟨hslot, by simp [inversionCallback], fun j hj => ?_, fun hin => ?_⟩
  · rw [inversionCallback, List.getD_eq_getElem?_getD,
      List.getElem?_set_ne (by omega), ← List.getD_eq_getElem?_getD]
  · rw [hslot, List.getD_eq_getElem?_getD, List.getElem?_eq_getElem hin]
    exact List.getElem_mem hin

/-- C7 witness: instantiation at a concrete trajectory and batch; with
`offset = 0` and step `i = 1` the injected latent is `zts[2] = 30`. -/
theorem c7_callback_overwrites_slot_zero_witness :
    (inversionCallback [10, 20, 30, 40] 0 1 [7, 8]).getD 0 default = 30 := by
  have h := (c7_callback_overwrites_slot_zero [10, 20, 30, 40] 0 1 [7, 8]
    (by decide)).1
  rw [h]
  decide

/-- C8: the generation batch prompts are `[style_prompt, prompt, prompt]`;
assuming the external diffusion pipeline returns one output per prompt in
order (its documented collaborator contract), the outputs map one-to-one,
in order, onto the prompt list, and the target the caller selects
(`outputs[-1]`, the last batch entry) is the generation for the content
prompt, which occupies the last prompt slot. -/
theorem c8_batch_order_and_target {α : Type} [Inhabited α]
    (genFn : String → α) (stylePrompt contentPrompt : String)
    (outputs : List α)
    (h : outputs = (styleInversionPrompts stylePrompt contentPrompt).map genFn) :
    outputs.length = (styleInversionPrompts stylePrompt contentPrompt).length ∧
    (∀ j, j < outputs.length →
      outputs.getD j default
        = genFn ((styleInversionPrompts stylePrompt contentPrompt).getD j (""))) ∧
    selectTarget outputs = genFn contentPrompt ∧
    (styleInversionPrompts stylePrompt contentPrompt).getD
        ((styleInversionPrompts stylePrompt contentPrompt).length - 1) ("")
      = contentPrompt := by
  subst h
  refine ⟨rfl, fun j hj => ?_, rfl, rfl⟩
  match j with
  | 0 => rfl
  | 1 => rfl
  | 2 => rfl
  | (k + 3) => exact absurd hj (by simp [styleInversionPrompts])

/-- C8 witness: instantiation at concrete prompts and a length-valued
generation function; the selected target comes from the content prompt. -/
theorem c8_batch_order_and_target_witness :
    selectTarget ((styleInversionPrompts "oil painting" "a red boat").map
      String.length) = 10 :=
  ((c8_batch_order_and_target String.length "oil painting" "a red boat"
    ((styleInversionPrompts "oil painting" "a red boat").map String.length)
    rfl).2.2.1).trans (by decide)

/-- C9: for the empty prompt the text-embedding helper returns all-zero
tensors shaped like the encoder outputs, for both the sequence and the
pooled embedding; consequently the unconditional half of the concatenated
classifier-free-guidance batch built by `_encode_text_sdxl_with_negative`
is exactly this all-zero block. -/
theorem c9_empty_prompt_zero_embeddings (encSeq encPooled : String → List ℚ)
    (prompt : String) :
    (getTextEmbeddings encSeq encPooled "").1.length = (encSeq "").length ∧
    (getTextEmbeddings encSeq encPooled "").2.length = (encPooled "").length ∧
    (∀ x ∈ (getTextEmbeddings encSeq encPooled "").1, x = 0) ∧
    (∀ x ∈ (getTextEmbeddings encSeq encPooled "").2, x = 0) ∧
    (∃ condSeq condPooled,
      (encodeTextSdxlWithNegative encSeq encPooled prompt).1
        = (getTextEmbeddings encSeq encPooled "").1 ++ condSeq ∧
      (encodeTextSdxlWithNegative encSeq encPooled prompt).2
        = (getTextEmbeddings encSeq encPooled "").2 ++ condPooled) := by
  have hval : getTextEmbeddings encSeq encPooled ""
      = ((encSeq "").map (fun _ => 0), (encPooled "").map (fun _ => 0)) := rfl
  refine ⟨?_, ?_, ?_, ?_,
    ⟨(getTextEmbeddings encSeq encPooled prompt).1,
      (getTextEmbeddings encSeq encPooled prompt).2, rfl, rfl⟩⟩
  · rw [hval]
    exact List.length_map _ _
  · rw [hval]
    exact List.length_map _ _
  · intro x hx
    rw [hval] at hx
    obtain ⟨_, _, hz⟩ := List.mem_map.1 hx
    exact hz.symm
  · intro x hx
    rw [hval] at hx
    obtain ⟨_, _, hz⟩ := List.mem_map.1 hx
    exact hz.symm

/-- C9 witness: instantiation at concrete encoders; the empty-prompt
sequence embedding keeps the encoder's output length. -/
theorem c9_empty_prompt_zero_embeddings_witness :
    (getTextEmbeddings (fun _ => [1, 2]) (fun _ => [3]) "").1.length = 2 :=
  ((c9_empty_prompt_zero_embeddings (fun _ => [1, 2]) (fun _ => [3])
    "a red boat").1).trans (by decide)

/-- C10: with no style prompt supplied, captioning occurs — but on the
image whose path `painterly_rendering` forwards to `style_inversion`, which
is the original input style image (`style_fpath`), not the stage-1
reconstruction saved by `brushstroke_imitation` at
`result_path/style_result.png`; when a style prompt is supplied no
captioning occurs and the supplied prompt is used. -/
theorem c10_caption_source_is_original_style :
    painterlyRenderingInversionInitFpath "style.png" = "style.png" ∧
    styleInversionCaptionInput none
        (painterlyRenderingInversionInitFpath "style.png")
      = some "style.png" ∧
    reconStyleFpath "out" = "out/style_result.png" ∧
    painterlyRenderingInversionInitFpath "style.png" ≠ reconStyleFpath "out" ∧
    (∀ captionFn fp,
      effectiveStylePrompt captionFn none fp = captionFn fp) ∧
    (∀ s fp, styleInversionCaptionInput (some s) fp = none ∧
      ∀ captionFn, effectiveStylePrompt captionFn (some s) fp = s) := by
  exact ⟨rfl, rfl, rfl, by decide, fun captionFn fp => rfl,
    fun s fp => ⟨rfl, fun captionFn => rfl⟩⟩
